import Mathlib

/-!
Shallow embedding of the `esexporter` package (repository `guoyk93/esdump`).

The package drives an Elasticsearch scroll export: `Do` loops over pages,
each page is processed by `do` (here `doStep`), which parses the raw
response body with `jsonparser` path lookups, checks `_shards.failed`,
extracts `hits.hits`, and dispatches each element's `_source` bytes to a
caller-supplied handler together with a session-global cursor.

Modelling decisions:
* Response bodies are modelled as parsed JSON trees (`JValue`); the
  `jsonparser` library is external to the repository, so its path-lookup
  functions (`GetString`, `GetInt`, `Get`, `ArrayEach`) are modelled as
  total functions over the tree (`getString`, `getInt`, `getPath`, and the
  fold inside `iterateHits`).  Malformed-byte errors of the parser are out
  of scope; shape errors (missing key, wrong type) are represented.
* The network transport is modelled by a script: the list of outcomes the
  backend returns for the successive search / scroll requests, each either
  a transport error or a `Response` (status code plus body).  An exhausted
  script is a transport error, matching a backend that stops answering.
* Go error values are the inductive `ExpErr`; the Go code compares errors
  by identity (`err == ErrUserCancelled || err == io.EOF`), which the
  distinct constructors `ExpErr.userCancelled` / `ExpErr.eof` capture: an
  error built with `ExpErr.msg "user cancelled"` is a different value.
* Handler calls are recorded in a trace of `Invocation` records, the
  observable behaviour of a session.
* `defer e.deleteScrollID()` is translated as the single release attempt
  recorded in `DoResult`; its error is not part of `DoResult.error`,
  mirroring the deferred call whose return value is dropped.
-/

namespace EsExporter

/-- A parsed JSON value (the shape `jsonparser` reads off the raw bytes). -/
inductive JValue where
  | null
  | bool (b : Bool)
  | num (n : Int)
  | str (s : String)
  | arr (xs : List JValue)
  | obj (fields : List (String × JValue))

/-- Errors of the embedded program.  `userCancelled` is the package-level
`ErrUserCancelled`, `eof` is `io.EOF`, `msg` is an `errors.New` /
`fmt.Errorf` value carrying only a message, `transport` is a failure of
the backend call itself. -/
inductive ExpErr where
  | userCancelled
  | eof
  | msg (s : String)
  | transport (s : String)
deriving DecidableEq, Repr

/-- First match of a key in an object's field list, as `jsonparser` finds
the first occurrence of a key. -/
def lookupField (key : String) : List (String × JValue) → Option JValue
  | [] => none
  | (k, v) :: rest => if k = key then some v else lookupField key rest

/-- `jsonparser.Get(buf, keys...)`: walk a key path through nested
objects; a missing key or a non-object on the way is the library's
key-path-not-found error. -/
def getPath (v : JValue) : List String → Except ExpErr JValue
  | [] => .ok v
  | k :: ks =>
    match v with
    | .obj fields =>
      match lookupField k fields with
      | some v' => getPath v' ks
      | none => .error (.msg "Key path not found")
    | _ => .error (.msg "Key path not found")

/-- `jsonparser.GetString`: path lookup plus a string-type check. -/
def getString (v : JValue) (path : List String) : Except ExpErr String :=
  match getPath v path with
  | .error e => .error e
  | .ok (.str s) => .ok s
  | .ok _ => .error (.msg "Value is not a string")

/-- `jsonparser.GetInt`: path lookup plus a number-type check. -/
def getInt (v : JValue) (path : List String) : Except ExpErr Int :=
  match getPath v path with
  | .error e => .error e
  | .ok (.num n) => .ok n
  | .ok _ => .error (.msg "Value is not a number")

/-- `true` exactly on JSON arrays. -/
def JValue.isArr : JValue → Bool
  | .arr _ => true
  | _ => false

/-- The `SourceHandler` type: `_source` bytes, emission index, total. -/
def Handler := JValue → Int → Int → Option ExpErr

/-- One handler call as observed by the caller: the `_source` payload, the
session-global emission index, the backend-reported total. -/
structure Invocation where
  buf : JValue
  id : Int
  total : Int

/-- The `Options` struct of the current snapshot (`src/unnamed/part_001`). -/
structure Options where
  index : String
  type' : String
  scroll : String
  batchByteSize : Int
  noMappingType : Bool

/-- The mutable fields of the `exporter` struct. -/
structure ExporterState where
  opts : Options
  scrollID : String
  size : Int
  cursor : Int

/-- A backend reply: HTTP status code and parsed body. -/
structure Response where
  statusCode : Nat
  body : JValue

/-- The per-element step of the `jsonparser.ArrayEach` callback: fetch the
`_source` sub-field of a hit; `jsonparser.Get` fails on a missing key, and
a present non-object `_source` is the exporter's own structural error. -/
def extractSource (v : JValue) : Except ExpErr JValue :=
  match v with
  | .obj fields =>
    match lookupField "_source" fields with
    | some (.obj fs) => .ok (.obj fs)
    | some _ => .error (.msg "missing _source in hits.hits")
    | none => .error (.msg "Key path not found")
  | _ => .error (.msg "Key path not found")

/-- Result of iterating one page's hits: the cursor after the iteration,
the first error (`itErr`), whether the callback ran at all (`itCalled`),
and the handler invocations made. -/
structure IterResult where
  cursor : Int
  itErr : Option ExpErr
  itCalled : Bool
  trace : List Invocation

/-- The `jsonparser.ArrayEach` loop of `exporter.do`: for each element,
extract `_source`, call the handler with the current cursor, and increment
the cursor on handler success; the first error stops all further work
(later callback runs are no-ops in the source since `itErr != nil`). -/
def iterateHits (h : Handler) (total : Int) (cursor : Int) : List JValue → IterResult
  | [] => ⟨cursor, none, false, []⟩
  | v :: vs =>
    match extractSource v with
    | .error e => ⟨cursor, some e, true, []⟩
    | .ok src =>
      match h src cursor total with
      | some e => ⟨cursor, some e, true, [⟨src, cursor, total⟩]⟩
      | none =>
        let r := iterateHits h total (cursor + 1) vs
        ⟨r.cursor, r.itErr, true, ⟨src, cursor, total⟩ :: r.trace⟩

/-- The checks of `exporter.do` that follow the `_scroll_id` update:
`_shards.failed` must parse and be zero, `hits.total` must parse, and
`hits.hits` must be an array; on success, the total and the hit list. -/
def parseAfterScroll (body : JValue) : Except ExpErr (Int × List JValue) :=
  match getInt body ["_shards", "failed"] with
  | .error e => .error e
  | .ok shardsFailed =>
    if shardsFailed ≠ 0 then .error (.msg "_shards.failed != 0")
    else
      match getInt body ["hits", "total"] with
      | .error e => .error e
      | .ok total =>
        match getPath body ["hits", "hits"] with
        | .error e => .error e
        | .ok (.arr hits) => .ok (total, hits)
        | .ok _ => .error (.msg "hits.hits is not array")

/-- Result of one `exporter.do` call: updated state, the returned error
(`none` means keep paging), and the handler invocations of the page. -/
structure StepResult where
  state : ExporterState
  error : Option ExpErr
  trace : List Invocation

/-- One `exporter.do` call on the next transport outcome: transport error
and non-200 status are fatal before parsing; `_scroll_id` is stored as
soon as it parses (even if a later check fails); then shards / total /
hits checks; then the hit iteration; an empty iteration is `io.EOF`. -/
def doStep (h : Handler) (st : ExporterState) (tr : Except String Response) : StepResult :=
  match tr with
  | .error e => ⟨st, some (.transport e), []⟩
  | .ok res =>
    if res.statusCode ≠ 200 then
      ⟨st, some (.msg ("http request failed: " ++ toString res.statusCode)), []⟩
    else
      match getString res.body ["_scroll_id"] with
      | .error e => ⟨st, some e, []⟩
      | .ok sid =>
        let st1 : ExporterState := { st with scrollID := sid }
        match parseAfterScroll res.body with
        | .error e => ⟨st1, some e, []⟩
        | .ok (total, hits) =>
          let r := iterateHits h total st1.cursor hits
          let st2 : ExporterState := { st1 with cursor := r.cursor }
          match r.itErr with
          | some e => ⟨st2, some e, r.trace⟩
          | none => if r.itCalled then ⟨st2, none, r.trace⟩ else ⟨st2, some .eof, r.trace⟩

/-- Result of the paging loop: final state, the error that ended the loop
(the loop in `Do` only exits on a non-nil error), and the whole trace. -/
structure LoopResult where
  state : ExporterState
  error : ExpErr
  trace : List Invocation

/-- The `for` loop of `exporter.Do`: run `do` until it returns a non-nil
error.  A script with no further replies is a transport failure. -/
def doLoop (h : Handler) (st : ExporterState) : List (Except String Response) → LoopResult
  | [] => ⟨st, .transport "no response", []⟩
  | tr :: rest =>
    let s := doStep h st tr
    match s.error with
    | some e => ⟨s.state, e, s.trace⟩
    | none =>
      let r := doLoop h s.state rest
      ⟨r.state, r.error, s.trace ++ r.trace⟩

/-- The sentinel filter of `exporter.Do`:
`if err == ErrUserCancelled || err == io.EOF { err = nil }` — an identity
comparison with exactly the two sentinel values. -/
def sentinelize : ExpErr → Option ExpErr
  | .userCancelled => none
  | .eof => none
  | e => some e

/-- `exporter.deleteScrollID`: no request when the scroll id is empty,
otherwise one DELETE whose outcome is the transport's. -/
def deleteScrollID (scrollID : String) (outcome : Except String Unit) : Option ExpErr :=
  if scrollID = "" then none
  else
    match outcome with
    | .error e => some (.transport e)
    | .ok _ => none

/-- Result of `exporter.Do`: the returned error, the full invocation
trace, and the single deferred release attempt (the scroll id it used and
the error it swallowed). -/
structure DoResult where
  error : Option ExpErr
  trace : List Invocation
  releasedScrollID : String
  releaseError : Option ExpErr

/-- `exporter.Do`: run the loop, apply the sentinel filter, and perform
the one deferred `deleteScrollID` with the final scroll id; the release
outcome never reaches `DoResult.error`. -/
def Do (h : Handler) (st : ExporterState) (script : List (Except String Response))
    (deleteOutcome : Except String Unit) : DoResult :=
  let r := doLoop h st script
  ⟨sentinelize r.error, r.trace, r.state.scrollID,
    deleteScrollID r.state.scrollID deleteOutcome⟩

/-- The probe sample count of `estimateBatchSize` (`const Sample = 512`). -/
def sampleCount : Nat := 512

/-- The measured average document byte size: probe body length divided by
the sample count, with the fixed fallback `512` substituted when the
integer average is zero. -/
def estAvgDocBytes (bodyLen : Nat) : Nat :=
  let a := bodyLen / sampleCount
  if a = 0 then 512 else a

/-- `exporter.estimateBatchSize` (`src/unnamed/part_001`): fail on an
empty probe body, otherwise divide the byte budget by the average
document size (Go `/` on `int64` is truncated division, `Int.tdiv`) and
clamp the result to `[10, 10000]`. -/
def estimateBatchSize (bodyLen : Nat) (batchByteSize : Int) : Except ExpErr Int :=
  if bodyLen = 0 then .error (.msg "failed to estimate batch size: empty response")
  else
    let size := Int.tdiv batchByteSize (estAvgDocBytes bodyLen)
    let clamped := if size < 10 then 10 else if size > 10000 then 10000 else size
    .ok clamped

/-- Written from the claim's words, for comparison with
`estimateBatchSize`: the estimated page cardinality is
`floor(B / (S/N))` clamped to `[lo, hi]`, where the average per-document
cost `S/N` is the floored integer average, with a fixed fallback average
substituted only when the measured average is zero. -/
def specPageCardinality (S N : Nat) (B : Int) (fallbackAvg lo hi : Int) : Int :=
  let avg : Int := (S / N : Nat)
  let avg := if avg = 0 then fallbackAvg else avg
  max lo (min hi (B / avg))

/-- The default-filling step of `New` (`src/unnamed/part_001`): empty type
becomes `_doc`, empty scroll keep-alive becomes `1m`, a non-positive byte
budget becomes 10 MiB. -/
def defaultOptions (opts : Options) : Options :=
  { opts with
    type' := if opts.type' = "" then "_doc" else opts.type'
    scroll := if opts.scroll = "" then "1m" else opts.scroll
    batchByteSize := if opts.batchByteSize ≤ 0 then 10 * 1024 * 1024 else opts.batchByteSize }

/-- The handler substituted by `New` when the caller passes `nil`: accept
and discard every document. -/
def noopHandler : Handler := fun _ _ _ => none

/-- `New` (`src/unnamed/part_001`): fill option defaults, substitute the
no-op handler for `nil`, and build the initial exporter state (empty
scroll id, size and cursor zero). -/
def New (opts : Options) (handler : Option Handler) : ExporterState × Handler :=
  (⟨defaultOptions opts, "", 0, 0⟩, handler.getD noopHandler)


/-- The list `[c, c+1, …, c+n-1]` of consecutive integers. -/
def idsFrom (c : Int) (n : Nat) : List Int :=
  (List.range n).map (fun (j : Nat) => c + (j : Int))

theorem idsFrom_zero (c : Int) : idsFrom c 0 = [] := rfl

theorem idsFrom_succ (c : Int) (n : Nat) : idsFrom c (n + 1) = c :: idsFrom (c + 1) n := by
  simp only [idsFrom, List.range_succ_eq_map, List.map_cons, List.map_map, Nat.cast_zero,
    add_zero]
  congr 1
  apply List.map_congr_left
  intro a _
  simp only [Function.comp_apply, Nat.succ_eq_add_one]
  push_cast
  ring

theorem idsFrom_one (c : Int) : idsFrom c 1 = [c] := by
  rw [idsFrom_succ, idsFrom_zero]

theorem idsFrom_append (c : Int) (m n : Nat) :
    idsFrom c (m + n) = idsFrom c m ++ idsFrom (c + m) n := by
  induction m generalizing c with
  | zero => simp [idsFrom_zero]
  | succ k ih =>
    have h1 : k + 1 + n = (k + n) + 1 := by omega
    rw [h1, idsFrom_succ, idsFrom_succ, ih (c + 1), List.cons_append]
    have h2 : c + 1 + (k : Int) = c + ((k : Nat) + 1 : Nat) := by push_cast; ring
    rw [h2]

/-- A non-nil `getLast?` survives a cons. -/
theorem getLast_cons_some {α : Type} (a x : α) (l : List α) (hl : l.getLast? = some x) :
    (a :: l).getLast? = some x := by
  cases l with
  | nil => simp at hl
  | cons b bs => rw [List.getLast?_cons_cons]; exact hl

/-- A non-nil `getLast?` of the right part survives an append. -/
theorem getLast_append_some {α : Type} (l₁ l₂ : List α) (x : α) (hl : l₂.getLast? = some x) :
    (l₁ ++ l₂).getLast? = some x := by
  induction l₁ with
  | nil => exact hl
  | cons a as ih => exact getLast_cons_some a x (as ++ l₂) ih

/-- `extractSource` only fails with a plain-message structural error. -/
theorem extractSource_error_msg (v : JValue) (e : ExpErr)
    (h : extractSource v = .error e) : ∃ s, e = .msg s := by
  unfold extractSource at h
  split at h
  next fields =>
    split at h
    · exact absurd h (by simp)
    · exact ⟨_, ((Except.error.injEq _ _).mp h).symm⟩
    · exact ⟨_, ((Except.error.injEq _ _).mp h).symm⟩
  next => exact ⟨_, ((Except.error.injEq _ _).mp h).symm⟩

/-- Emission indices of one page's iteration are consecutive, starting at
the cursor the iteration was entered with. -/
theorem iterateHits_trace_ids (h : Handler) (total : Int) (vs : List JValue) :
    ∀ c : Int,
      (iterateHits h total c vs).trace.map Invocation.id =
        idsFrom c (iterateHits h total c vs).trace.length := by
  induction vs with
  | nil => intro c; simp [iterateHits, idsFrom_zero]
  | cons v vs ih =>
    intro c
    cases hsv : extractSource v with
    | error e => simp [iterateHits, hsv, idsFrom_zero]
    | ok src =>
      cases hh : h src c total with
      | some e => simp [iterateHits, hsv, hh, idsFrom_one]
      | none =>
        simp only [iterateHits, hsv, hh, List.map_cons, List.length_cons]
        rw [idsFrom_succ]
        exact congrArg (List.cons c) (ih (c + 1))

/-- When the iteration ends without error, the cursor has advanced by
exactly the number of handler invocations. -/
theorem iterateHits_cursor (h : Handler) (total : Int) (vs : List JValue) :
    ∀ c : Int,
      (iterateHits h total c vs).itErr = none →
      (iterateHits h total c vs).cursor = c + (iterateHits h total c vs).trace.length := by
  induction vs with
  | nil => intro c _; simp [iterateHits]
  | cons v vs ih =>
    intro c herr
    cases hsv : extractSource v with
    | error e => simp [iterateHits, hsv] at herr
    | ok src =>
      cases hh : h src c total with
      | some e => simp [iterateHits, hsv, hh] at herr
      | none =>
        have herr' : (iterateHits h total (c + 1) vs).itErr = none := by
          simpa [iterateHits, hsv, hh] using herr
        simp only [iterateHits, hsv, hh, List.length_cons]
        rw [ih (c + 1) herr']
        push_cast
        ring

/-- Only the last invocation of an iteration can have a failing handler
result, and that result is exactly the iteration's error. -/
theorem iterateHits_handler_fail (h : Handler) (total : Int) (vs : List JValue) :
    ∀ (c : Int) (r : Invocation),
      r ∈ (iterateHits h total c vs).trace →
      h r.buf r.id r.total ≠ none →
      (iterateHits h total c vs).trace.getLast? = some r ∧
        (iterateHits h total c vs).itErr = h r.buf r.id r.total := by
  induction vs with
  | nil => intro c r hr _; simp [iterateHits] at hr
  | cons v vs ih =>
    intro c r hr hne
    cases hsv : extractSource v with
    | error e => simp [iterateHits, hsv] at hr
    | ok src =>
      cases hh : h src c total with
      | some e =>
        simp only [iterateHits, hsv, hh, List.mem_singleton] at hr
        subst hr
        simp [iterateHits, hsv, hh]
      | none =>
        simp only [iterateHits, hsv, hh, List.mem_cons] at hr
        rcases hr with hr | hr
        · exfalso
          apply hne
          subst hr
          exact hh
        · obtain ⟨h1, h2⟩ := ih (c + 1) r hr hne
          simp only [iterateHits, hsv, hh]
          exact ⟨getLast_cons_some _ _ _ h1, h2⟩

/-- `getPath` only fails with a plain-message error. -/
theorem getPath_error_msg (p : List String) : ∀ (v : JValue) (e : ExpErr),
    getPath v p = .error e → ∃ s, e = .msg s := by
  induction p with
  | nil => intro v e hp; simp [getPath] at hp
  | cons k ks ih =>
    intro v e hp
    cases v with
    | obj fields =>
      simp only [getPath] at hp
      cases hl : lookupField k fields with
      | some v' => rw [hl] at hp; exact ih v' e hp
      | none => rw [hl] at hp; exact ⟨_, ((Except.error.injEq _ _).mp hp).symm⟩
    | null => exact ⟨_, ((Except.error.injEq _ _).mp hp).symm⟩
    | bool b => exact ⟨_, ((Except.error.injEq _ _).mp hp).symm⟩
    | num n => exact ⟨_, ((Except.error.injEq _ _).mp hp).symm⟩
    | str s => exact ⟨_, ((Except.error.injEq _ _).mp hp).symm⟩
    | arr xs => exact ⟨_, ((Except.error.injEq _ _).mp hp).symm⟩

/-- `getString` only fails with a plain-message error. -/
theorem getString_error_msg (v : JValue) (p : List String) (e : ExpErr)
    (hp : getString v p = .error e) : ∃ s, e = .msg s := by
  unfold getString at hp
  cases hg : getPath v p with
  | error e' =>
    rw [hg] at hp
    obtain ⟨s, hs⟩ := getPath_error_msg p v e' hg
    exact ⟨s, by simp only [Except.error.injEq] at hp; rw [← hp, hs]⟩
  | ok w =>
    rw [hg] at hp
    cases w <;> simp only [Except.error.injEq] at hp <;>
      first
      | exact ⟨_, hp.symm⟩
      | exact absurd hp (by simp)

/-- `getInt` only fails with a plain-message error. -/
theorem getInt_error_msg (v : JValue) (p : List String) (e : ExpErr)
    (hp : getInt v p = .error e) : ∃ s, e = .msg s := by
  unfold getInt at hp
  cases hg : getPath v p with
  | error e' =>
    rw [hg] at hp
    obtain ⟨s, hs⟩ := getPath_error_msg p v e' hg
    exact ⟨s, by simp only [Except.error.injEq] at hp; rw [← hp, hs]⟩
  | ok w =>
    rw [hg] at hp
    cases w <;> simp only [Except.error.injEq] at hp <;>
      first
      | exact ⟨_, hp.symm⟩
      | exact absurd hp (by simp)

/-- `parseAfterScroll` only fails with a plain-message error. -/
theorem parseAfterScroll_error_msg (body : JValue) (e : ExpErr)
    (hp : parseAfterScroll body = .error e) : ∃ s, e = .msg s := by
  unfold parseAfterScroll at hp
  cases hi : getInt body ["_shards", "failed"] with
  | error e' =>
    rw [hi] at hp
    simp only [Except.error.injEq] at hp
    exact hp ▸ getInt_error_msg body _ e' hi
  | ok shardsFailed =>
    rw [hi] at hp
    by_cases hz : shardsFailed ≠ 0
    · simp only [if_pos hz, Except.error.injEq] at hp
      exact ⟨_, hp.symm⟩
    · simp only [if_neg hz] at hp
      cases ht : getInt body ["hits", "total"] with
      | error e' =>
        rw [ht] at hp
        simp only [Except.error.injEq] at hp
        exact hp ▸ getInt_error_msg body _ e' ht
      | ok total =>
        rw [ht] at hp
        cases hh : getPath body ["hits", "hits"] with
        | error e' =>
          rw [hh] at hp
          simp only [Except.error.injEq] at hp
          exact hp ▸ getPath_error_msg _ body e' hh
        | ok w =>
          rw [hh] at hp
          cases w <;> simp only [Except.error.injEq] at hp <;>
            first
            | exact ⟨_, hp.symm⟩
            | exact absurd hp (by simp)

/-- A page whose shard-failure count parses to a non-zero value fails the
post-scroll checks with exactly the shard error. -/
theorem parseAfterScroll_shards (body : JValue) (n : Int)
    (hi : getInt body ["_shards", "failed"] = .ok n) (hn : n ≠ 0) :
    parseAfterScroll body = .error (.msg "_shards.failed != 0") := by
  unfold parseAfterScroll
  rw [hi]
  simp [hn]

/-- A page whose `hits.hits` value is present but not an array fails the
post-scroll checks. -/
theorem parseAfterScroll_nonarray (body : JValue) (v : JValue)
    (hh : getPath body ["hits", "hits"] = .ok v) (hv : v.isArr = false) :
    ∃ e, parseAfterScroll body = .error e := by
  unfold parseAfterScroll
  cases hi : getInt body ["_shards", "failed"] with
  | error e' => exact ⟨e', rfl⟩
  | ok shardsFailed =>
    by_cases hz : shardsFailed ≠ 0
    · exact ⟨.msg "_shards.failed != 0", by simp [hz]⟩
    · cases ht : getInt body ["hits", "total"] with
      | error e' => exact ⟨e', by simp [hz]⟩
      | ok total =>
        cases v with
        | arr xs => simp [JValue.isArr] at hv
        | null => exact ⟨.msg "hits.hits is not array", by simp [hz, hh]⟩
        | bool b => exact ⟨.msg "hits.hits is not array", by simp [hz, hh]⟩
        | num n => exact ⟨.msg "hits.hits is not array", by simp [hz, hh]⟩
        | str s => exact ⟨.msg "hits.hits is not array", by simp [hz, hh]⟩
        | obj fields => exact ⟨.msg "hits.hits is not array", by simp [hz, hh]⟩

/-- `doStep` never changes the session configuration. -/
theorem doStep_opts (h : Handler) (st : ExporterState) (tr : Except String Response) :
    (doStep h st tr).state.opts = st.opts := by
  cases tr with
  | error e => rfl
  | ok res =>
    by_cases hsc : res.statusCode = 200
    · cases hgs : getString res.body ["_scroll_id"] with
      | error e => simp [doStep, hsc, hgs]
      | ok sid =>
        cases hpp : parseAfterScroll res.body with
        | error e => simp [doStep, hsc, hgs, hpp]
        | ok th =>
          obtain ⟨total, hits⟩ := th
          cases hit : (iterateHits h total st.cursor hits).itErr with
          | some e => simp [doStep, hsc, hgs, hpp, hit]
          | none =>
            by_cases hc : (iterateHits h total st.cursor hits).itCalled
            · simp [doStep, hsc, hgs, hpp, hit, hc]
            · simp [doStep, hsc, hgs, hpp, hit, hc]
    · simp [doStep, hsc]

/-- When `do` errors before reaching the hit iteration (here: failed
post-scroll checks), the page produces no handler invocations and a fatal
(non-sentinel) error. -/
theorem doStep_of_parse_error (h : Handler) (st : ExporterState) (res : Response)
    (e : ExpErr) (hp : parseAfterScroll res.body = .error e) :
    (doStep h st (.ok res)).trace = [] ∧
      ∃ e', (doStep h st (.ok res)).error = some e' ∧
        e' ≠ ExpErr.userCancelled ∧ e' ≠ ExpErr.eof := by
  by_cases hsc : res.statusCode = 200
  · cases hgs : getString res.body ["_scroll_id"] with
    | error e'' =>
      obtain ⟨s, hs⟩ := getString_error_msg res.body _ e'' hgs
      refine ⟨by simp [doStep, hsc, hgs], e'', by simp [doStep, hsc, hgs], ?_, ?_⟩ <;>
        simp [hs]
    | ok sid =>
      obtain ⟨s, hs⟩ := parseAfterScroll_error_msg res.body e hp
      refine ⟨by simp [doStep, hsc, hgs, hp], e, by simp [doStep, hsc, hgs, hp], ?_, ?_⟩ <;>
        simp [hs]
  · exact ⟨by simp [doStep, hsc],
      .msg ("http request failed: " ++ toString res.statusCode),
      by simp [doStep, hsc], by simp, by simp⟩

/-- Emission indices of one `do` call are consecutive from the cursor. -/
theorem doStep_trace_ids (h : Handler) (st : ExporterState) (tr : Except String Response) :
    (doStep h st tr).trace.map Invocation.id =
      idsFrom st.cursor (doStep h st tr).trace.length := by
  cases tr with
  | error e => simp [doStep, idsFrom_zero]
  | ok res =>
    by_cases hsc : res.statusCode = 200
    · cases hgs : getString res.body ["_scroll_id"] with
      | error e => simp [doStep, hsc, hgs, idsFrom_zero]
      | ok sid =>
        cases hpp : parseAfterScroll res.body with
        | error e => simp [doStep, hsc, hgs, hpp, idsFrom_zero]
        | ok th =>
          obtain ⟨total, hits⟩ := th
          cases hit : (iterateHits h total st.cursor hits).itErr with
          | some e =>
            simpa [doStep, hsc, hgs, hpp, hit] using iterateHits_trace_ids h total hits st.cursor
          | none =>
            by_cases hc : (iterateHits h total st.cursor hits).itCalled
            · simpa [doStep, hsc, hgs, hpp, hit, hc] using
                iterateHits_trace_ids h total hits st.cursor
            · simpa [doStep, hsc, hgs, hpp, hit, hc] using
                iterateHits_trace_ids h total hits st.cursor
    · simp [doStep, hsc, idsFrom_zero]

/-- A `do` call that asks for another page has advanced the cursor by
exactly its number of handler invocations. -/
theorem doStep_cursor (h : Handler) (st : ExporterState) (tr : Except String Response)
    (herr : (doStep h st tr).error = none) :
    (doStep h st tr).state.cursor = st.cursor + (doStep h st tr).trace.length := by
  cases tr with
  | error e => simp [doStep] at herr
  | ok res =>
    by_cases hsc : res.statusCode = 200
    · cases hgs : getString res.body ["_scroll_id"] with
      | error e => simp [doStep, hsc, hgs] at herr
      | ok sid =>
        cases hpp : parseAfterScroll res.body with
        | error e => simp [doStep, hsc, hgs, hpp] at herr
        | ok th =>
          obtain ⟨total, hits⟩ := th
          cases hit : (iterateHits h total st.cursor hits).itErr with
          | some e => simp [doStep, hsc, hgs, hpp, hit] at herr
          | none =>
            by_cases hc : (iterateHits h total st.cursor hits).itCalled
            · simpa [doStep, hsc, hgs, hpp, hit, hc] using
                iterateHits_cursor h total hits st.cursor hit
            · simp [doStep, hsc, hgs, hpp, hit, hc] at herr
    · simp [doStep, hsc] at herr

/-- Only the last invocation of a `do` call can have a failing handler
result, and that failure is the call's returned error. -/
theorem doStep_handler_fail (h : Handler) (st : ExporterState) (tr : Except String Response)
    (r : Invocation) (hr : r ∈ (doStep h st tr).trace)
    (hne : h r.buf r.id r.total ≠ none) :
    (doStep h st tr).trace.getLast? = some r ∧
      (doStep h st tr).error = h r.buf r.id r.total := by
  cases tr with
  | error e => simp [doStep] at hr
  | ok res =>
    by_cases hsc : res.statusCode = 200
    · cases hgs : getString res.body ["_scroll_id"] with
      | error e => simp [doStep, hsc, hgs] at hr
      | ok sid =>
        cases hpp : parseAfterScroll res.body with
        | error e => simp [doStep, hsc, hgs, hpp] at hr
        | ok th =>
          obtain ⟨total, hits⟩ := th
          have hr' : r ∈ (iterateHits h total st.cursor hits).trace := by
            cases hit : (iterateHits h total st.cursor hits).itErr with
            | some e => simpa [doStep, hsc, hgs, hpp, hit] using hr
            | none =>
              by_cases hc : (iterateHits h total st.cursor hits).itCalled
              · simpa [doStep, hsc, hgs, hpp, hit, hc] using hr
              · simpa [doStep, hsc, hgs, hpp, hit, hc] using hr
          obtain ⟨h1, h2⟩ := iterateHits_handler_fail h total hits st.cursor r hr' hne
          cases hit : (iterateHits h total st.cursor hits).itErr with
          | some e =>
            refine ⟨by simpa [doStep, hsc, hgs, hpp, hit] using h1, ?_⟩
            rw [hit] at h2
            simpa [doStep, hsc, hgs, hpp, hit] using h2
          | none => rw [hit] at h2; exact absurd h2.symm hne
    · simp [doStep, hsc] at hr

/-- The paging loop never changes the session configuration. -/
theorem doLoop_opts (h : Handler) (script : List (Except String Response)) :
    ∀ st : ExporterState, (doLoop h st script).state.opts = st.opts := by
  induction script with
  | nil => intro st; rfl
  | cons tr rest ih =>
    intro st
    cases hs : (doStep h st tr).error with
    | some e => simp [doLoop, hs, doStep_opts]
    | none =>
      simp only [doLoop, hs]
      rw [ih (doStep h st tr).state, doStep_opts]

/-- Emission indices over a whole session are consecutive, starting at
the cursor the loop was entered with. -/
theorem doLoop_trace_ids (h : Handler) (script : List (Except String Response)) :
    ∀ st : ExporterState,
      (doLoop h st script).trace.map Invocation.id =
        idsFrom st.cursor (doLoop h st script).trace.length := by
  induction script with
  | nil => intro st; simp [doLoop, idsFrom_zero]
  | cons tr rest ih =>
    intro st
    cases hs : (doStep h st tr).error with
    | some e => simpa [doLoop, hs] using doStep_trace_ids h st tr
    | none =>
      simp only [doLoop, hs, List.map_append, List.length_append]
      rw [doStep_trace_ids h st tr, ih (doStep h st tr).state,
        doStep_cursor h st tr hs, idsFrom_append]

/-- Only the last invocation of a session can have a failing handler
result; that failure is exactly the error that ends the loop. -/
theorem doLoop_handler_fail (h : Handler) (script : List (Except String Response)) :
    ∀ (st : ExporterState) (r : Invocation),
      r ∈ (doLoop h st script).trace →
      h r.buf r.id r.total ≠ none →
      (doLoop h st script).trace.getLast? = some r ∧
        some (doLoop h st script).error = h r.buf r.id r.total := by
  induction script with
  | nil => intro st r hr _; simp [doLoop] at hr
  | cons tr rest ih =>
    intro st r hr hne
    cases hs : (doStep h st tr).error with
    | some e =>
      rw [doLoop] at hr ⊢
      simp only [hs] at hr ⊢
      obtain ⟨h1, h2⟩ := doStep_handler_fail h st tr r hr hne
      rw [hs] at h2
      exact ⟨h1, h2⟩
    | none =>
      rw [doLoop] at hr ⊢
      simp only [hs, List.mem_append] at hr ⊢
      rcases hr with hr | hr
      · obtain ⟨_, h2⟩ := doStep_handler_fail h st tr r hr hne
        rw [hs] at h2
        exact absurd h2.symm hne
      · obtain ⟨h1, h2⟩ := ih (doStep h st tr).state r hr hne
        exact ⟨getLast_append_some _ _ _ h1, h2⟩

/-- The sentinel filter lets every non-sentinel error through unchanged. -/
theorem sentinelize_of_fatal (e : ExpErr) (hu : e ≠ ExpErr.userCancelled)
    (hf : e ≠ ExpErr.eof) : sentinelize e = some e := by
  cases e with
  | userCancelled => exact absurd rfl hu
  | eof => exact absurd rfl hf
  | msg s => rfl
  | transport s => rfl

/-- A session whose first page fails fatally makes no invocations and
`Do` surfaces an error. -/
theorem do_of_step_fatal (h : Handler) (st : ExporterState) (res : Response)
    (rest : List (Except String Response)) (o : Except String Unit)
    (htr : (doStep h st (.ok res)).trace = []) (e : ExpErr)
    (he : (doStep h st (.ok res)).error = some e)
    (hu : e ≠ ExpErr.userCancelled) (hf : e ≠ ExpErr.eof) :
    (Do h st (.ok res :: rest) o).trace = [] ∧
      (Do h st (.ok res :: rest) o).error ≠ none := by
  have hloopE : (doLoop h st (.ok res :: rest)).error = e := by simp [doLoop, he]
  have hloopT : (doLoop h st (.ok res :: rest)).trace = [] := by simp [doLoop, he, htr]
  constructor
  · show (doLoop h st (.ok res :: rest)).trace = []
    exact hloopT
  · show sentinelize (doLoop h st (.ok res :: rest)).error ≠ none
    rw [hloopE, sentinelize_of_fatal e hu hf]
    simp

/-- The measured (or fallback) average document size is at least one byte. -/
theorem estAvgDocBytes_pos (bodyLen : Nat) : 1 ≤ estAvgDocBytes bodyLen := by
  unfold estAvgDocBytes sampleCount
  by_cases h0 : bodyLen / 512 = 0
  · rw [if_pos h0]
    omega
  · rw [if_neg h0]
    omega

/-- The exporting of the measured average into the claim's formula. -/
theorem estAvgDocBytes_cast (bodyLen : Nat) :
    ((estAvgDocBytes bodyLen : Nat) : Int) =
      (if ((bodyLen / sampleCount : Nat) : Int) = 0 then (512 : Int)
       else ((bodyLen / sampleCount : Nat) : Int)) := by
  unfold estAvgDocBytes
  by_cases h0 : bodyLen / sampleCount = 0
  · rw [if_pos h0, h0]
    norm_num
  · rw [if_neg h0, if_neg (by exact_mod_cast h0)]

/-- The exporter's clamp written as a lattice clamp. -/
theorem clampTen (x : Int) :
    (if x < 10 then (10 : Int) else if x > 10000 then 10000 else x) =
      max 10 (min 10000 x) := by
  rw [Int.max_def, Int.min_def]
  split_ifs <;> omega

/-- An iteration error is a handler error or a structural message. -/
theorem iterateHits_itErr_cases (h : Handler) (total : Int) (vs : List JValue) :
    ∀ (c : Int) (e : ExpErr),
      (iterateHits h total c vs).itErr = some e →
      (∃ src i, h src i total = some e) ∨ (∃ s, e = ExpErr.msg s) := by
  induction vs with
  | nil => intro c e he; simp [iterateHits] at he
  | cons v vs ih =>
    intro c e he
    cases hsv : extractSource v with
    | error e' =>
      simp only [iterateHits, hsv, Option.some.injEq] at he
      exact Or.inr (he ▸ extractSource_error_msg v e' hsv)
    | ok src =>
      cases hh : h src c total with
      | some e' =>
        simp only [iterateHits, hsv, hh, Option.some.injEq] at he
        exact Or.inl ⟨src, c, he ▸ hh⟩
      | none =>
        simp only [iterateHits, hsv, hh] at he
        exact ih (c + 1) e he

/-- A `do` error is a handler error, a structural or protocol message, a
transport failure, or the exhaustion sentinel — never the cancellation
sentinel unless the handler itself returned it. -/
theorem doStep_error_cases (h : Handler) (st : ExporterState)
    (tr : Except String Response) (e : ExpErr)
    (he : (doStep h st tr).error = some e) :
    (∃ src i t, h src i t = some e) ∨ (∃ s, e = ExpErr.msg s) ∨
      (∃ s, e = ExpErr.transport s) ∨ e = ExpErr.eof := by
  cases tr with
  | error e' =>
    simp only [doStep, Option.some.injEq] at he
    exact Or.inr (Or.inr (Or.inl ⟨e', he.symm⟩))
  | ok res =>
    by_cases hsc : res.statusCode = 200
    · cases hgs : getString res.body ["_scroll_id"] with
      | error e' =>
        have hstep : (doStep h st (.ok res)).error = some e' := by
          simp [doStep, hsc, hgs]
        rw [he] at hstep
        simp only [Option.some.injEq] at hstep
        exact Or.inr (Or.inl (hstep ▸ getString_error_msg res.body _ e' hgs))
      | ok sid =>
        cases hpp : parseAfterScroll res.body with
        | error e' =>
          have : (doStep h st (.ok res)).error = some e' := by
            simp [doStep, hsc, hgs, hpp]
          rw [he] at this
          simp only [Option.some.injEq] at this
          exact Or.inr (Or.inl (this ▸ parseAfterScroll_error_msg res.body e' hpp))
        | ok th =>
          obtain ⟨total, hits⟩ := th
          cases hit : (iterateHits h total st.cursor hits).itErr with
          | some e' =>
            have : (doStep h st (.ok res)).error = some e' := by
              simp [doStep, hsc, hgs, hpp, hit]
            rw [he] at this
            simp only [Option.some.injEq] at this
            subst this
            rcases iterateHits_itErr_cases h total hits st.cursor e hit with hcase | hcase
            · obtain ⟨src, i, hsi⟩ := hcase
              exact Or.inl ⟨src, i, total, hsi⟩
            · exact Or.inr (Or.inl hcase)
          | none =>
            by_cases hc : (iterateHits h total st.cursor hits).itCalled
            · simp [doStep, hsc, hgs, hpp, hit, hc] at he
            · have : (doStep h st (.ok res)).error = some ExpErr.eof := by
                simp [doStep, hsc, hgs, hpp, hit, hc]
              rw [he] at this
              simp only [Option.some.injEq] at this
              exact Or.inr (Or.inr (Or.inr this))
    · have hstep : (doStep h st (.ok res)).error =
          some (.msg ("http request failed: " ++ toString res.statusCode)) := by
        simp [doStep, hsc]
      rw [he] at hstep
      simp only [Option.some.injEq] at hstep
      exact Or.inr (Or.inl ⟨_, hstep⟩)

/-- A loop-ending error is a handler error, a message, a transport
failure, or the exhaustion sentinel. -/
theorem doLoop_error_cases (h : Handler) (script : List (Except String Response)) :
    ∀ st : ExporterState,
      (∃ src i t, h src i t = some (doLoop h st script).error) ∨
        (∃ s, (doLoop h st script).error = ExpErr.msg s) ∨
        (∃ s, (doLoop h st script).error = ExpErr.transport s) ∨
        (doLoop h st script).error = ExpErr.eof := by
  induction script with
  | nil => intro st; exact Or.inr (Or.inr (Or.inl ⟨"no response", rfl⟩))
  | cons tr rest ih =>
    intro st
    cases hs : (doStep h st tr).error with
    | some e =>
      have hE : (doLoop h st (tr :: rest)).error = e := by simp [doLoop, hs]
      rw [hE]
      exact doStep_error_cases h st tr e hs
    | none =>
      have hE : (doLoop h st (tr :: rest)).error = (doLoop h (doStep h st tr).state rest).error := by
        simp [doLoop, hs]
      rw [hE]
      exact ih (doStep h st tr).state

/-! Concrete fixtures used by the witnesses and counterexample. -/

/-- A sample `_source` object. -/
def srcA : JValue := .obj [("a", .num 1)]

/-- A well-formed hit. -/
def hitA : JValue := .obj [("_source", srcA)]

/-- A malformed hit: no `_source` sub-field. -/
def badHit : JValue := .obj [("f", .num 2)]

/-- A well-formed page body with the given hits and total 4. -/
def goodBody (hits : List JValue) : JValue :=
  .obj [("_scroll_id", .str "sid1"),
        ("_shards", .obj [("failed", .num 0)]),
        ("hits", .obj [("total", .num 4), ("hits", .arr hits)])]

/-- A 200 response with a well-formed body. -/
def pageResp (hits : List JValue) : Response := ⟨200, goodBody hits⟩

/-- A 3-page script: two documents, two documents, then an empty page. -/
def niceScript : List (Except String Response) :=
  [.ok (pageResp [hitA, hitA]), .ok (pageResp [hitA, hitA]), .ok (pageResp [])]

/-- Sample raw options. -/
def opts0 : Options := ⟨"idx", "", "", 0, false⟩

/-- The session state `New` builds from `opts0`. -/
def st0 : ExporterState := (New opts0 none).1

/-- A handler that cancels on emission index 1. -/
def cancelAt1 : Handler := fun _ i _ => if i == 1 then some .userCancelled else none

/-- A single page of three documents. -/
def cancelScript : List (Except String Response) :=
  [.ok (pageResp [hitA, hitA, hitA])]

/-- A page reporting three failed shards while still carrying a hit. -/
def shardsResp : Response :=
  ⟨200, .obj [("_scroll_id", .str "s2"),
              ("_shards", .obj [("failed", .num 3)]),
              ("hits", .obj [("total", .num 5), ("hits", .arr [hitA])])]⟩

/-- A page whose `hits.hits` is present but is a string. -/
def nonArrResp : Response :=
  ⟨200, .obj [("_scroll_id", .str "s3"),
              ("_shards", .obj [("failed", .num 0)]),
              ("hits", .obj [("total", .num 5), ("hits", .str "nope")])]⟩

/-- A handler whose error merely spells the cancellation message. -/
def fakeCancel : Handler := fun _ _ _ => some (.msg "user cancelled")

/-! The claims. -/

/-- C1: for every session whose `Do` call completes without error, the
sequence of emission indices passed to the handler is exactly
`0, 1, …, k-1` with no gaps or repeats, where `k` is the number of
documents dispatched; the index is session-global (not reset per page)
and increases by exactly 1 after each successful handler call. -/
theorem c1_emission_indices_consecutive (h : Handler) (st : ExporterState)
    (script : List (Except String Response)) (o : Except String Unit)
    (hc : st.cursor = 0) (_hok : (Do h st script o).error = none) :
    (Do h st script o).trace.map Invocation.id =
      (List.range (Do h st script o).trace.length).map (fun (j : Nat) => (j : Int)) := by
  have hids := doLoop_trace_ids h script st
  rw [hc] at hids
  show (doLoop h st script).trace.map Invocation.id = _
  rw [hids]
  unfold idsFrom
  apply List.map_congr_left
  intro a _
  simp

/-- C1 witness: a 3-page session (2 + 2 + 0 documents) dispatches indices
0, 1, 2, 3. -/
theorem c1_witness :
    (Do noopHandler st0 niceScript (.ok ())).trace.map Invocation.id =
      (List.range (Do noopHandler st0 niceScript (.ok ())).trace.length).map
        (fun (j : Nat) => (j : Int)) :=
  c1_emission_indices_consecutive noopHandler st0 niceScript (.ok ()) rfl rfl

/-- C2: if the handler returns the cancellation sentinel on invocation
`i`, no invocation `i+1` occurs (the cancelled invocation is the last of
the trace) and `Do` returns no error; invocations dispatched before the
sentinel stay in the trace unchanged. -/
theorem c2_cancellation_stops_and_returns_nil (h : Handler) (st : ExporterState)
    (script : List (Except String Response)) (o : Except String Unit)
    (r : Invocation) (hr : r ∈ (Do h st script o).trace)
    (hcanc : h r.buf r.id r.total = some ExpErr.userCancelled) :
    (Do h st script o).trace.getLast? = some r ∧ (Do h st script o).error = none := by
  have hne : h r.buf r.id r.total ≠ none := by rw [hcanc]; simp
  obtain ⟨h1, h2⟩ := doLoop_handler_fail h script st r hr hne
  refine ⟨h1, ?_⟩
  rw [hcanc] at h2
  simp only [Option.some.injEq] at h2
  show sentinelize (doLoop h st script).error = none
  rw [h2]
  rfl

/-- C2 witness: a handler cancelling at index 1 on a 3-document page is
invoked twice, the cancelled invocation is last, and `Do` returns nil. -/
theorem c2_witness :
    (Do cancelAt1 st0 cancelScript (.ok ())).trace.getLast? = some ⟨srcA, 1, 4⟩ ∧
      (Do cancelAt1 st0 cancelScript (.ok ())).error = none :=
  c2_cancellation_stops_and_returns_nil cancelAt1 st0 cancelScript (.ok ())
    ⟨srcA, 1, 4⟩
    (by
      have ht : (Do cancelAt1 st0 cancelScript (.ok ())).trace =
          [⟨srcA, 0, 4⟩, ⟨srcA, 1, 4⟩] := rfl
      rw [ht]
      exact List.mem_cons_of_mem _ (List.mem_cons_self _ _))
    rfl

/-- C3: a page response whose `_shards.failed` count is greater than zero
produces zero handler invocations for that page and a fatal
(non-sentinel) error, and a session reaching such a page terminates with
an error — even if the page's hits array is non-empty. -/
theorem c3_shard_failure_fatal (h : Handler) (res : Response) (n : Int)
    (hs : getInt res.body ["_shards", "failed"] = .ok n) (hn : 0 < n) :
    ∀ (st : ExporterState) (rest : List (Except String Response)) (o : Except String Unit),
      (doStep h st (.ok res)).trace = [] ∧
      (∃ e, (doStep h st (.ok res)).error = some e ∧
        e ≠ ExpErr.userCancelled ∧ e ≠ ExpErr.eof) ∧
      (Do h st (.ok res :: rest) o).trace = [] ∧
      (Do h st (.ok res :: rest) o).error ≠ none := by
  intro st rest o
  have hp := parseAfterScroll_shards res.body n hs (by omega)
  obtain ⟨htr, e, he, hu, hf⟩ := doStep_of_parse_error h st res _ hp
  obtain ⟨hT, hE⟩ := do_of_step_fatal h st res rest o htr e he hu hf
  exact ⟨htr, ⟨e, he, hu, hf⟩, hT, hE⟩

/-- C3 witness: a page with `_shards.failed = 3` and one hit. -/
theorem c3_witness :
    (doStep noopHandler st0 (.ok shardsResp)).trace = [] ∧
      (∃ e, (doStep noopHandler st0 (.ok shardsResp)).error = some e ∧
        e ≠ ExpErr.userCancelled ∧ e ≠ ExpErr.eof) ∧
      (Do noopHandler st0 [.ok shardsResp] (.ok ())).trace = [] ∧
      (Do noopHandler st0 [.ok shardsResp] (.ok ())).error ≠ none :=
  c3_shard_failure_fatal noopHandler shardsResp 3 rfl (by omega) st0 [] (.ok ())

/-- C4: for a probe response of `S > 0` bytes over the fixed sample count
512 and a non-negative byte budget `B`, the estimated page cardinality is
exactly the claim's formula — `B` divided by the floored average
per-document cost (fallback average 512 substituted only when the
measured average is zero), clamped to `[10, 10000]` — and it equals the
minimum bound for very small `B` and the maximum bound for very large
`B`. -/
theorem c4_estimator_formula (S : Nat) (B : Int) (hS : S ≠ 0) (hB : 0 ≤ B) :
    estimateBatchSize S B = .ok (specPageCardinality S sampleCount B 512 10 10000) ∧
      (B < 10 → estimateBatchSize S B = .ok 10) ∧
      (10000 * (estAvgDocBytes S : Int) ≤ B → estimateBatchSize S B = .ok 10000) := by
  have havg1 : 1 ≤ estAvgDocBytes S := estAvgDocBytes_pos S
  have havgI : (1 : Int) ≤ (estAvgDocBytes S : Int) := by exact_mod_cast havg1
  have htd : Int.tdiv B (estAvgDocBytes S) = B / (estAvgDocBytes S : Int) :=
    Int.tdiv_eq_ediv hB (by omega)
  refine ⟨?_, ?_, ?_⟩
  · unfold estimateBatchSize specPageCardinality
    rw [if_neg hS]
    simp only [Except.ok.injEq]
    rw [htd, clampTen, ← estAvgDocBytes_cast]
  · intro hB10
    have hlt : Int.tdiv B (estAvgDocBytes S) < 10 := by
      rw [htd]
      have := Int.ediv_le_self (estAvgDocBytes S : Int) hB
      omega
    unfold estimateBatchSize
    rw [if_neg hS]
    simp only [if_pos hlt]
  · intro hbig
    have hge : 10000 ≤ Int.tdiv B (estAvgDocBytes S) := by
      rw [htd, Int.le_ediv_iff_mul_le (by omega : (0 : Int) < (estAvgDocBytes S : Int))]
      omega
    unfold estimateBatchSize
    rw [if_neg hS]
    have h1 : ¬Int.tdiv B (estAvgDocBytes S) < 10 := by omega
    by_cases hgt : Int.tdiv B (estAvgDocBytes S) > 10000
    · simp [h1, hgt]
    · have heq : Int.tdiv B (estAvgDocBytes S) = 10000 := by omega
      simp [h1, hgt, heq]

/-- C4 witness: a 1024-byte probe (average 2 bytes per document) with a
budget of 5 bytes estimates the floor 10; the formula agrees. -/
theorem c4_witness :
    (estimateBatchSize 1024 5 =
        .ok (specPageCardinality 1024 sampleCount 5 512 10 10000)) ∧
      ((5 : Int) < 10 → estimateBatchSize 1024 5 = .ok 10) ∧
      (10000 * (estAvgDocBytes 1024 : Int) ≤ 5 → estimateBatchSize 1024 5 = .ok 10000) :=
  c4_estimator_formula 1024 5 (by omega) (by omega)

/-- C5 counterexample: a page `[well-formed hit, malformed hit]` aborts
with a fatal structural error, yet its first document has already been
delivered to the handler — the page IS partially delivered, refuting
"the page is not partially delivered to the handler". -/
theorem c5_counterexample :
    (doStep noopHandler st0 (.ok (pageResp [hitA, badHit]))).error =
        some (.msg "Key path not found") ∧
      (doStep noopHandler st0 (.ok (pageResp [hitA, badHit]))).trace.length = 1 ∧
      (pageResp [hitA, badHit]).body.isArr = false ∧
      (Do noopHandler st0 [.ok (pageResp [hitA, badHit])] (.ok ())).trace.map
          Invocation.id = [0] :=
  ⟨rfl, rfl, rfl, rfl⟩

/-- C5 (amended): extraction aborts the page at the first malformed
element (missing or non-object `_source`) with a fatal structural error
rather than skipping it: with a handler that accepts every document, no
element at or after the malformed one is delivered, while the elements
before it have already been dispatched (exactly `pre.length` many) and
are not rolled back. -/
theorem c5_first_malformed_aborts (h : Handler) (total c : Int)
    (pre : List JValue) (v : JValue) (vs : List JValue) (e : ExpErr)
    (hok : ∀ b i t, h b i t = none)
    (hpre : ∀ u ∈ pre, ∃ src, extractSource u = .ok src)
    (hv : extractSource v = .error e) :
    (iterateHits h total c (pre ++ v :: vs)).itErr = some e ∧
      (iterateHits h total c (pre ++ v :: vs)).trace.length = pre.length ∧
      e ≠ ExpErr.userCancelled ∧ e ≠ ExpErr.eof := by
  obtain ⟨s, rfl⟩ := extractSource_error_msg v e hv
  have key : ∀ (pre : List JValue) (c : Int),
      (∀ u ∈ pre, ∃ src, extractSource u = .ok src) →
      (iterateHits h total c (pre ++ v :: vs)).itErr = some (.msg s) ∧
        (iterateHits h total c (pre ++ v :: vs)).trace.length = pre.length := by
    intro pre
    induction pre with
    | nil => intro c _; simp [iterateHits, hv]
    | cons u pre' ih =>
      intro c hpre'
      obtain ⟨src, hsrc⟩ := hpre' u (List.mem_cons_self u pre')
      have hh := hok src c total
      obtain ⟨k1, k2⟩ := ih (c + 1) (fun w hw => hpre' w (List.mem_cons_of_mem _ hw))
      constructor
      · simpa [iterateHits, hsrc, hh] using k1
      · simp only [List.cons_append, iterateHits, hsrc, hh, List.length_cons]
        exact congrArg (fun n => n + 1) k2
  obtain ⟨k1, k2⟩ := key pre c hpre
  exact ⟨k1, k2, by simp, by simp⟩

/-- C5 witness: one good element before the malformed one gives exactly
one invocation and the structural error. -/
theorem c5_witness :
    (iterateHits noopHandler 4 0 ([hitA] ++ badHit :: [])).itErr =
        some (.msg "Key path not found") ∧
      (iterateHits noopHandler 4 0 ([hitA] ++ badHit :: [])).trace.length =
        [hitA].length ∧
      ExpErr.msg "Key path not found" ≠ ExpErr.userCancelled ∧
      ExpErr.msg "Key path not found" ≠ ExpErr.eof :=
  c5_first_malformed_aborts noopHandler 4 0 [hitA] badHit [] (.msg "Key path not found")
    (fun _ _ _ => rfl)
    (by
      intro u hu
      rw [List.mem_singleton] at hu
      subst hu
      exact ⟨srcA, rfl⟩)
    rfl

/-- C6: `Do` returns nil exactly when the paging loop terminated via the
exhaustion sentinel (`io.EOF`) or the cancellation sentinel
(`ErrUserCancelled`) — an identity check against exactly those two
values — and any other loop-ending error is returned as-is. -/
theorem c6_nil_iff_sentinel (h : Handler) (st : ExporterState)
    (script : List (Except String Response)) (o : Except String Unit) :
    ((Do h st script o).error = none ↔
      (doLoop h st script).error = ExpErr.userCancelled ∨
        (doLoop h st script).error = ExpErr.eof) ∧
    (∀ e : ExpErr, (doLoop h st script).error = e →
      e ≠ ExpErr.userCancelled → e ≠ ExpErr.eof →
      (Do h st script o).error = some e) := by
  have hDo : (Do h st script o).error = sentinelize (doLoop h st script).error := rfl
  constructor
  · rw [hDo]
    cases hE : (doLoop h st script).error with
    | userCancelled => simp [sentinelize]
    | eof => simp [sentinelize]
    | msg s => simp [sentinelize]
    | transport s => simp [sentinelize]
  · intro e hE hu hf
    rw [hDo, hE]
    exact sentinelize_of_fatal e hu hf

/-- C6 witness: a handler error that merely spells "user cancelled" is
not the sentinel value and is surfaced as a real error. -/
theorem c6_witness :
    (Do fakeCancel st0 [.ok (pageResp [hitA])] (.ok ())).error =
      some (.msg "user cancelled") :=
  (c6_nil_iff_sentinel fakeCancel st0 [.ok (pageResp [hitA])] (.ok ())).2
    (.msg "user cancelled") rfl (by simp) (by simp)

/-- C7: a page response whose `hits.hits` field is present but not an
array produces zero handler invocations and a fatal structural error,
and a session reaching such a page terminates with an error. -/
theorem c7_nonarray_hits_fatal (h : Handler) (res : Response) (v : JValue)
    (hh : getPath res.body ["hits", "hits"] = .ok v) (hv : v.isArr = false) :
    ∀ (st : ExporterState) (rest : List (Except String Response)) (o : Except String Unit),
      (doStep h st (.ok res)).trace = [] ∧
      (∃ e, (doStep h st (.ok res)).error = some e ∧
        e ≠ ExpErr.userCancelled ∧ e ≠ ExpErr.eof) ∧
      (Do h st (.ok res :: rest) o).trace = [] ∧
      (Do h st (.ok res :: rest) o).error ≠ none := by
  intro st rest o
  obtain ⟨e0, hp⟩ := parseAfterScroll_nonarray res.body v hh hv
  obtain ⟨htr, e, he, hu, hf⟩ := doStep_of_parse_error h st res e0 hp
  obtain ⟨hT, hE⟩ := do_of_step_fatal h st res rest o htr e he hu hf
  exact ⟨htr, ⟨e, he, hu, hf⟩, hT, hE⟩

/-- C7 witness: `hits.hits` typed as a string. -/
theorem c7_witness :
    (doStep noopHandler st0 (.ok nonArrResp)).trace = [] ∧
      (∃ e, (doStep noopHandler st0 (.ok nonArrResp)).error = some e ∧
        e ≠ ExpErr.userCancelled ∧ e ≠ ExpErr.eof) ∧
      (Do noopHandler st0 [.ok nonArrResp] (.ok ())).trace = [] ∧
      (Do noopHandler st0 [.ok nonArrResp] (.ok ())).error ≠ none :=
  c7_nonarray_hits_fatal noopHandler nonArrResp (.str "nope") rfl rfl st0 [] (.ok ())

/-- C8: on every exit from `Do`, exactly one best-effort release of the
server-held scan state is attempted with the last known scroll id (the
deferred `deleteScrollID`), and the outcome of that release never changes
what `Do` returns: error and trace are identical for every release
outcome, and the swallowed release error is exactly what
`deleteScrollID` produced. -/
theorem c8_release_never_surfaced (h : Handler) (st : ExporterState)
    (script : List (Except String Response)) (o o' : Except String Unit) :
    (Do h st script o).error = (Do h st script o').error ∧
      (Do h st script o).trace = (Do h st script o').trace ∧
      (Do h st script o).releasedScrollID = (doLoop h st script).state.scrollID ∧
      (Do h st script o).releaseError =
        deleteScrollID (doLoop h st script).state.scrollID o :=
  ⟨rfl, rfl, rfl, rfl⟩

/-- C9: `New` fills unset options with the documented defaults — empty
type qualifier becomes `_doc`, empty keep-alive becomes `1m`, non-positive
byte budget becomes 10 MiB — set fields are kept, the effective
configuration is never mutated by the paging loop, and every derived page
cardinality lies within the bounds `[10, 10000]`. -/
theorem c9_new_defaults (opts : Options) (hnd : Option Handler) :
    ((New opts hnd).1.opts.type' = if opts.type' = "" then "_doc" else opts.type') ∧
      ((New opts hnd).1.opts.scroll = if opts.scroll = "" then "1m" else opts.scroll) ∧
      ((New opts hnd).1.opts.batchByteSize =
        if opts.batchByteSize ≤ 0 then 10 * 1024 * 1024 else opts.batchByteSize) ∧
      (New opts hnd).1.opts.index = opts.index ∧
      (New opts hnd).1.opts.noMappingType = opts.noMappingType ∧
      (∀ (h : Handler) (script : List (Except String Response)),
        (doLoop h (New opts hnd).1 script).state.opts = (New opts hnd).1.opts) ∧
      (∀ (S : Nat) (B n : Int), estimateBatchSize S B = .ok n → 10 ≤ n ∧ n ≤ 10000) := by
  refine ⟨rfl, rfl, rfl, rfl, rfl, ?_, ?_⟩
  · intro h script
    exact doLoop_opts h script _
  · intro S B n hn
    unfold estimateBatchSize at hn
    by_cases h0 : S = 0
    · rw [if_pos h0] at hn
      exact absurd hn (by simp)
    · rw [if_neg h0] at hn
      simp only [Except.ok.injEq] at hn
      split_ifs at hn <;> omega

/-- C9 witness: empty options get the documented defaults, and a sample
estimate lies within the bounds. -/
theorem c9_witness :
    (New opts0 none).1.opts.type' = "_doc" ∧
      (New opts0 none).1.opts.scroll = "1m" ∧
      (New opts0 none).1.opts.batchByteSize = 10 * 1024 * 1024 ∧
      ((10 : Int) ≤ 10000 ∧ (10000 : Int) ≤ 10000) := by
  obtain ⟨h1, h2, h3, _, _, _, h7⟩ := c9_new_defaults opts0 none
  exact ⟨by simpa using h1, by simpa using h2, by simpa using h3,
    h7 1024 10485760 10000 rfl⟩

/-- C10: a `nil` handler is replaced by a no-op handler that accepts and
silently discards every document — so the exporter never fails or cancels
on account of the handler: the loop's terminating error is never the
cancellation sentinel, and a well-formed exhausting session returns nil
after dispatching every document. -/
theorem c10_nil_handler_noop :
    (∀ opts : Options, (New opts none).2 = noopHandler) ∧
      (∀ (b : JValue) (i t : Int), noopHandler b i t = none) ∧
      (∀ (st : ExporterState) (script : List (Except String Response)),
        (doLoop noopHandler st script).error ≠ ExpErr.userCancelled) ∧
      (Do (New opts0 none).2 (New opts0 none).1 niceScript (.ok ())).error = none ∧
      (Do (New opts0 none).2 (New opts0 none).1 niceScript (.ok ())).trace.length = 4 := by
  refine ⟨fun _ => rfl, fun _ _ _ => rfl, ?_, rfl, rfl⟩
  intro st script hE
  rcases doLoop_error_cases noopHandler script st with hcase | hcase | hcase | hcase
  · obtain ⟨src, i, t, hsi⟩ := hcase
    rw [hE] at hsi
    exact absurd hsi (by simp [noopHandler])
  · obtain ⟨s, hs⟩ := hcase
    rw [hE] at hs
    exact absurd hs (by simp)
  · obtain ⟨s, hs⟩ := hcase
    rw [hE] at hs
    exact absurd hs (by simp)
  · rw [hE] at hcase
    exact absurd hcase (by simp)

/-- C10 witness: `New` with no handler substitutes the no-op handler and
a 4-document session completes with no error. -/
theorem c10_witness :
    (New opts0 none).2 = noopHandler ∧
      (Do (New opts0 none).2 (New opts0 none).1 niceScript (.ok ())).error = none :=
  ⟨c10_nil_handler_noop.1 opts0, c10_nil_handler_noop.2.2.2.1⟩

end EsExporter
